import Mathlib

/-!
Verification of `scripts/fix-all-logger-signatures.py`.

The script applies one global regex substitution to the whole file content:

  pattern     = logger\.(warn|info)\(([^,]+),\s*error,\s*\x7b\s*component:\s*([^\x7d]+)\s*\x7d\)
  replacement = logger.\1(\2, \x7b component: \3, error \x7d)

and wraps it in a tiny CLI (argument check, read file, substitute, write file,
print a confirmation line).

The pattern is deterministic: every greedy piece is forced by the literal that
follows it, with a single one-step backtrack in `\s*([^\x7d]+)` when everything
before the first closing brace is whitespace.  We embed the matcher as a total
function on `List Char`, the global substitution as a fuel-indexed scan (fuel
`s.length` always suffices because a match consumes at least the `logger.`
prefix), and the CLI as a pure function from the argument vector and the file
content to the printed lines, the exit code and the written content.
-/

namespace FixLoggerSignatures

/-- Characters matched by Python's `\s` in a Unicode (str) pattern. -/
def isSpace (c : Char) : Bool :=
  let n := c.toNat
  (9 ≤ n && n ≤ 13) || n == 32 || (28 ≤ n && n ≤ 31) || n == 0x85 || n == 0xA0 ||
  n == 0x1680 || (0x2000 ≤ n && n ≤ 0x200A) || n == 0x2028 || n == 0x2029 ||
  n == 0x202F || n == 0x205F || n == 0x3000

/-- Strip an expected literal from the front of the text, returning the rest. -/
def lit : List Char → List Char → Option (List Char)
  | [], s => some s
  | _ :: _, [] => none
  | a :: l, b :: s => if a = b then lit l s else none

/-- A successful match of the pattern: captured level (group 1), message
expression (group 2), component value (group 3), and the text after the match. -/
structure RMatch where
  lvl : List Char
  msg : List Char
  comp : List Char
  rest : List Char
deriving DecidableEq

/-- `(warn|info)`: try `warn`, then `info`. -/
def levelOf (s : List Char) : Option (List Char × List Char) :=
  match lit "warn".toList s with
  | some r => some ("warn".toList, r)
  | none =>
    match lit "info".toList s with
    | some r => some ("info".toList, r)
    | none => none

/-- Attempt to match the pattern at the start of `s`.

Each regex piece is forced: `([^,]+)` runs to the first comma (the next token
is a literal comma); each `\s*` runs to the first non-space (the next token
starts with a non-space character); `([^\x7d]+)\s*\x7d` puts the closing brace at
the first `\x7d` of the remaining text, the capture stretching from the end of the
maximal space run up to that brace — except that when that span would be empty
the engine backtracks one space, so the capture is the last space character. -/
def tryMatch (s : List Char) : Option RMatch :=
  match lit "logger.".toList s with
  | none => none
  | some s =>
  match levelOf s with
  | none => none
  | some (lvl, s) =>
  match lit "(".toList s with
  | none => none
  | some s =>
    let msg := s.takeWhile (fun c => !(c == ','))
    if msg = [] then none else
    match lit ",".toList (s.dropWhile (fun c => !(c == ','))) with
    | none => none
    | some s =>
    match lit "error,".toList (s.dropWhile isSpace) with
    | none => none
    | some s =>
    match lit "\x7b".toList (s.dropWhile isSpace) with
    | none => none
    | some s =>
    match lit "component:".toList (s.dropWhile isSpace) with
    | none => none
    | some s =>
      let pre := s.takeWhile (fun c => !(c == '\x7d'))
      if pre = [] then none else
      let w := pre.takeWhile isSpace
      let comp := if w.length = pre.length then pre.drop (pre.length - 1)
                  else pre.drop w.length
      match lit "\x7d)".toList (s.dropWhile (fun c => !(c == '\x7d'))) with
      | none => none
      | some s => some ⟨lvl, msg, comp, s⟩

/-- The replacement text `logger.\1(\2, \x7b component: \3, error \x7d)`. -/
def render (m : RMatch) : List Char :=
  "logger.".toList ++ m.lvl ++ "(".toList ++ m.msg ++
    ", \x7b component: ".toList ++ m.comp ++ ", error \x7d)".toList

/-- Global substitution scan with explicit fuel: at each position try the
pattern; on a match emit the replacement and continue after the match, else
copy one character.  This is `re.sub`'s left-to-right, non-overlapping scan. -/
def subF : Nat → List Char → List Char
  | 0, s => s
  | _ + 1, [] => []
  | n + 1, c :: cs =>
    match tryMatch (c :: cs) with
    | some m => render m ++ subF n m.rest
    | none => c :: subF n cs

/-- `content_fixed = re.sub(pattern, replacement, content)`: fuel `length`
suffices because every match consumes at least one character. -/
def content_fixed (s : List Char) : List Char := subF s.length s

/-! ### Basic lemmas about the matcher -/

theorem lit_append {l s r : List Char} (h : lit l s = some r) : s = l ++ r := by
  induction l generalizing s with
  | nil => simpa [lit] using h
  | cons a l ih =>
    cases s with
    | nil => exact Option.noConfusion h
    | cons b s =>
      by_cases hab : a = b
      · subst hab
        simp only [lit, if_pos rfl] at h
        simpa using ih h
      · simp [lit, if_neg hab] at h

theorem lit_length {l s r : List Char} (h : lit l s = some r) :
    s.length = l.length + r.length := by
  rw [lit_append h, List.length_append]

theorem dropWhile_length_le (p : Char → Bool) :
    ∀ s : List Char, (s.dropWhile p).length ≤ s.length
  | [] => Nat.le_refl 0
  | a :: s => by
    rw [List.dropWhile_cons]
    split
    · exact Nat.le_succ_of_le (dropWhile_length_le p s)
    · exact Nat.le_refl _

theorem levelOf_append {s lvl r : List Char} (h : levelOf s = some (lvl, r)) :
    (lvl = "warn".toList ∧ s = "warn".toList ++ r) ∨
      (lvl = "info".toList ∧ s = "info".toList ++ r) := by
  unfold levelOf at h
  split at h
  · rename_i r1 h1
    simp only [Option.some.injEq, Prod.mk.injEq] at h
    obtain ⟨hl, hr⟩ := h
    subst hr
    exact Or.inl ⟨hl.symm, lit_append h1⟩
  · rename_i h1
    split at h
    · rename_i r2 h2
      simp only [Option.some.injEq, Prod.mk.injEq] at h
      obtain ⟨hl, hr⟩ := h
      subst hr
      exact Or.inr ⟨hl.symm, lit_append h2⟩
    · exact Option.noConfusion h

theorem levelOf_length {s lvl r : List Char} (h : levelOf s = some (lvl, r)) :
    s.length = 4 + r.length := by
  rcases levelOf_append h with ⟨_, hs⟩ | ⟨_, hs⟩
  · have e : ("warn".toList).length = 4 := rfl
    rw [hs, List.length_append, e]
  · have e : ("info".toList).length = 4 := rfl
    rw [hs, List.length_append, e]

/-- A successful match consumes at least the `logger.` prefix, so the text
after the match is strictly shorter than the text the match started at. -/
theorem tryMatch_rest_lt {s : List Char} {m : RMatch} (h : tryMatch s = some m) :
    m.rest.length < s.length := by
  unfold tryMatch at h
  split at h
  · exact Option.noConfusion h
  rename_i s1 h1
  split at h
  · exact Option.noConfusion h
  rename_i lvl s2 h2
  split at h
  · exact Option.noConfusion h
  rename_i s3 h3
  simp only [] at h
  split at h
  · exact Option.noConfusion h
  rename_i hmsg
  split at h
  · exact Option.noConfusion h
  rename_i s4 h4
  split at h
  · exact Option.noConfusion h
  rename_i s5 h5
  split at h
  · exact Option.noConfusion h
  rename_i s6 h6
  split at h
  · exact Option.noConfusion h
  rename_i s7 h7
  split at h
  · exact Option.noConfusion h
  rename_i hpre
  split at h
  · exact Option.noConfusion h
  rename_i s8 h8
  have hm : m.rest = s8 := by
    cases h
    rfl
  have l1 := lit_length h1
  have l2 := levelOf_length h2
  have l3 := lit_length h3
  have l4 := lit_length h4
  have l5 := lit_length h5
  have l6 := lit_length h6
  have l7 := lit_length h7
  have l8 := lit_length h8
  have d3 := dropWhile_length_le (fun c => !(c == ',')) s3
  have d4 := dropWhile_length_le isSpace s4
  have d5 := dropWhile_length_le isSpace s5
  have d6 := dropWhile_length_le isSpace s6
  have d7 := dropWhile_length_le (fun c => !(c == '\x7d')) s7
  have e1 : ("logger.".toList).length = 7 := rfl
  have e3 : ("(".toList).length = 1 := rfl
  have e4 : (",".toList).length = 1 := rfl
  have e5 : ("error,".toList).length = 6 := rfl
  have e6 : ("\x7b".toList).length = 1 := rfl
  have e7 : ("component:".toList).length = 10 := rfl
  have e8 : ("\x7d)".toList).length = 2 := rfl
  rw [hm]
  omega

theorem tryMatch_nil : tryMatch [] = none := rfl

/-! ### The fuel `s.length` is always enough -/

theorem subF_eq_of_le : ∀ (n : Nat) (s : List Char), s.length ≤ n →
    subF n s = subF s.length s := by
  intro n
  induction n using Nat.strong_induction_on with
  | _ n ih =>
    intro s hs
    cases n with
    | zero =>
      have hnil : s = [] := List.eq_nil_of_length_eq_zero (Nat.le_zero.mp hs)
      subst hnil
      rfl
    | succ n =>
      cases s with
      | nil => rfl
      | cons c cs =>
        have hcs : cs.length ≤ n := by simpa using hs
        cases htm : tryMatch (c :: cs) with
        | some m =>
          have hr : m.rest.length < cs.length + 1 := by
            simpa using tryMatch_rest_lt htm
          have h1 : subF (n + 1) (c :: cs) = render m ++ subF n m.rest := by
            simp [subF, htm]
          have h2 : subF (c :: cs).length (c :: cs) =
              render m ++ subF cs.length m.rest := by
            simp [subF, htm]
          rw [h1, h2, ih n (Nat.lt_succ_self n) m.rest (by omega),
            ih cs.length (Nat.lt_succ_of_le hcs) m.rest (by omega)]
        | none =>
          have h1 : subF (n + 1) (c :: cs) = c :: subF n cs := by
            simp [subF, htm]
          have h2 : subF (c :: cs).length (c :: cs) = c :: subF cs.length cs := by
            simp [subF, htm]
          rw [h1, h2, ih n (Nat.lt_succ_self n) cs hcs,
            ih cs.length (Nat.lt_succ_of_le hcs) cs (Nat.le_refl _)]

theorem content_fixed_nil : content_fixed [] = [] := rfl

theorem content_fixed_cons_of_none {c : Char} {cs : List Char}
    (h : tryMatch (c :: cs) = none) :
    content_fixed (c :: cs) = c :: content_fixed cs := by
  show subF (c :: cs).length (c :: cs) = c :: content_fixed cs
  simp [subF, h, content_fixed]

theorem content_fixed_of_match {s : List Char} {m : RMatch}
    (h : tryMatch s = some m) :
    content_fixed s = render m ++ content_fixed m.rest := by
  cases s with
  | nil => rw [tryMatch_nil] at h; exact Option.noConfusion h
  | cons c cs =>
    have hr : m.rest.length ≤ cs.length := by
      have := tryMatch_rest_lt h
      simp only [List.length_cons] at this
      omega
    have h1 : subF (cs.length + 1) (c :: cs) = render m ++ subF cs.length m.rest := by
      simp [subF, h]
    show subF (c :: cs).length (c :: cs) = _
    rw [List.length_cons, h1, subF_eq_of_le cs.length m.rest hr]
    rfl

/-! ### Inputs with no match anywhere pass through unchanged -/

/-- `true` iff the pattern matches at some position of `s`: exactly when
`re.sub` would rewrite something. -/
def hasMatch : List Char → Bool
  | [] => false
  | c :: cs => (tryMatch (c :: cs)).isSome || hasMatch cs

theorem content_fixed_of_no_match : ∀ {s : List Char}, hasMatch s = false →
    content_fixed s = s := by
  intro s
  induction s with
  | nil => intro _; rfl
  | cons c cs ih =>
    intro h
    simp only [hasMatch, Bool.or_eq_false_iff] at h
    have hnone : tryMatch (c :: cs) = none := by
      cases htm : tryMatch (c :: cs) with
      | none => rfl
      | some m => rw [htm] at h; simp at h
    rw [content_fixed_cons_of_none hnone, ih h.2]

/-! ### Text before any match is copied verbatim -/

/-- `true` iff no match starts inside the `u` part of `u ++ v`. -/
def noStartIn : List Char → List Char → Bool
  | [], _ => true
  | c :: cs, v => !(tryMatch (c :: (cs ++ v))).isSome && noStartIn cs v

theorem content_fixed_append_of_noStartIn : ∀ (u v : List Char),
    noStartIn u v = true → content_fixed (u ++ v) = u ++ content_fixed v := by
  intro u
  induction u with
  | nil => intro v _; rfl
  | cons c cs ih =>
    intro v h
    simp only [noStartIn, Bool.and_eq_true] at h
    have hnone : tryMatch (c :: (cs ++ v)) = none := by
      cases htm : tryMatch (c :: (cs ++ v)) with
      | none => rfl
      | some m => rw [htm] at h; simp at h
    show content_fixed (c :: (cs ++ v)) = c :: (cs ++ content_fixed v)
    rw [content_fixed_cons_of_none hnone, ih v h.2]

/-! ### A match always sits at a `logger.warn(` or `logger.info(` site -/

theorem isPrefixOf_append_self : ∀ l t : List Char, l.isPrefixOf (l ++ t) = true
  | [], _ => by simp [List.isPrefixOf]
  | a :: l, t => by
    show ((a == a) && l.isPrefixOf (l ++ t)) = true
    simp [isPrefixOf_append_self l t]

/-- `true` iff `s` begins with `logger.warn(` or `logger.info(`. -/
def startsWI (s : List Char) : Bool :=
  "logger.warn(".toList.isPrefixOf s || "logger.info(".toList.isPrefixOf s

theorem tryMatch_some_startsWI {s : List Char} {m : RMatch}
    (h : tryMatch s = some m) : startsWI s = true := by
  unfold tryMatch at h
  split at h
  · exact Option.noConfusion h
  rename_i s1 h1
  split at h
  · exact Option.noConfusion h
  rename_i lvl s2 h2
  split at h
  · exact Option.noConfusion h
  rename_i s3 h3
  have hs := lit_append h1
  have hs2 := lit_append h3
  rcases levelOf_append h2 with ⟨-, hs1⟩ | ⟨-, hs1⟩
  · have hw : s = "logger.warn(".toList ++ s3 := by
      rw [hs, hs1, hs2, ← List.append_assoc, ← List.append_assoc]
      rfl
    unfold startsWI
    rw [hw, isPrefixOf_append_self, Bool.true_or]
  · have hw : s = "logger.info(".toList ++ s3 := by
      rw [hs, hs1, hs2, ← List.append_assoc, ← List.append_assoc]
      rfl
    unfold startsWI
    rw [hw, isPrefixOf_append_self, Bool.or_true]

/-- `true` iff no position of `s` starts with `logger.warn(` or `logger.info(`:
no call site with a matchable level occurs anywhere in `s`. -/
def noWarnInfoSite : List Char → Bool
  | [] => true
  | c :: cs => !startsWI (c :: cs) && noWarnInfoSite cs

theorem content_fixed_of_noWarnInfoSite : ∀ {s : List Char},
    noWarnInfoSite s = true → content_fixed s = s := by
  intro s
  induction s with
  | nil => intro _; rfl
  | cons c cs ih =>
    intro h
    simp only [noWarnInfoSite, Bool.and_eq_true] at h
    have hnone : tryMatch (c :: cs) = none := by
      cases htm : tryMatch (c :: cs) with
      | none => rfl
      | some m =>
        have := tryMatch_some_startsWI htm
        rw [this] at h
        simp at h
    rw [content_fixed_cons_of_none hnone, ih h.2]

/-! ### The CLI wrapper -/

/-- The usage line printed when no (or an empty) file path is given. -/
def usage_message : String := "Usage: python3 fix-all-logger-signatures.py <file>"

/-- `sys.argv[1] if len(sys.argv) > 1 else None` (`argv` includes the program
name at index 0). -/
def filePathOf : List String → Option String
  | _ :: p :: _ => some p
  | _ => none

/-- Observable outcome of one run: lines printed to standard output, process
exit status, and the content written back to the file (`none` when the script
exits before any file access). -/
structure CliResult where
  printed : List String
  exitCode : Nat
  written : Option (List Char)
deriving DecidableEq

/-- The whole script, as a function of the argument vector and the content the
file would be read to hold: `if not file_path` (which is truthy-false for both
`None` and the empty string) print the usage line and exit 1; otherwise write
back the substituted content, print `Fixed: <path>`, and end with status 0. -/
def runScript (argv : List String) (content : List Char) : CliResult :=
  match filePathOf argv with
  | none => ⟨[usage_message], 1, none⟩
  | some p =>
    if p = "" then ⟨[usage_message], 1, none⟩
    else ⟨["Fixed: " ++ p], 0, some (content_fixed content)⟩

/-! ### Concrete lines used by the claims (quotes and braces written as
`\x27`, `\x7b`, `\x7d`) -/

/-- The spec's extra-key scenario input. -/
def lineCacheMiss : List Char :=
  "logger.warn(\x27Cache miss\x27, error, \x7b component: \x27cache\x27, extra: 1 \x7d)".toList

/-- What the script actually produces for `lineCacheMiss`. -/
def lineCacheMissOut : List Char :=
  "logger.warn(\x27Cache miss\x27, \x7b component: \x27cache\x27, extra: 1 , error \x7d)".toList

/-- The spec's `Saved record:` scenario input. -/
def lineSaved : List Char :=
  "logger.info(\x27Saved record:\x27, error, \x7b component: \x27storage\x27 \x7d)".toList

/-- The output the spec claims for `lineSaved` (no space before `, error`). -/
def lineSavedClaimed : List Char :=
  "logger.info(\x27Saved record:\x27, \x7b component: \x27storage\x27, error \x7d)".toList

/-- What the script actually produces for `lineSaved`: group 3 keeps the
space before the closing brace, so a space precedes the inserted comma. -/
def lineSavedActual : List Char :=
  "logger.info(\x27Saved record:\x27, \x7b component: \x27storage\x27 , error \x7d)".toList

/-- The spec's canonical one-match input. -/
def lineCanonical : List Char :=
  "logger.warn(\x27msg\x27, error, \x7b component: \x27X\x27 \x7d)".toList

/-- The output the spec claims for `lineCanonical`. -/
def lineCanonicalClaimed : List Char :=
  "logger.warn(\x27msg\x27, \x7b component: \x27X\x27, error \x7d)".toList

/-- What the script actually produces for `lineCanonical`. -/
def lineCanonicalActual : List Char :=
  "logger.warn(\x27msg\x27, \x7b component: \x27X\x27 , error \x7d)".toList

/-- An input whose rewritten form matches the pattern again: the component
value itself contains a `logger.warn(` call whose closing brace is the first
one in the metadata object. -/
def lineNested : List Char :=
  "logger.info(m, error, \x7b component: logger.warn(x, error, \x7b component: y \x7d)".toList

/-- Text containing no matched call-site shape (an `error`-level call only). -/
def lineNoMatch : List Char :=
  "const x = 1;\nlogger.error(\x27nope\x27, error, \x7b component: \x27a\x27 \x7d)\n".toList

/-- Call sites at levels other than lowercase `warn`/`info` only. -/
def lineOtherLevels : List Char :=
  ("logger.error(\x27m\x27, error, \x7b component: \x27x\x27 \x7d) " ++
   "logger.debug(\x27m\x27, error, \x7b component: \x27x\x27 \x7d) " ++
   "logger.Warn(\x27m\x27, error, \x7b component: \x27x\x27 \x7d) " ++
   "logger.INFO(\x27m\x27, error, \x7b component: \x27x\x27 \x7d)").toList

/-- Two independent matches with surrounding text. -/
def lineTwoMatches : List Char :=
  ("A logger.warn(\x27a\x27, error, \x7b component: \x27p\x27 \x7d) " ++
   "B logger.info(\x27b\x27, error, \x7b component: \x27q\x27 \x7d) C").toList

/-- The script's output for `lineTwoMatches`: both matches rewritten, all
surrounding characters preserved. -/
def lineTwoMatchesOut : List Char :=
  ("A logger.warn(\x27a\x27, \x7b component: \x27p\x27 , error \x7d) " ++
   "B logger.info(\x27b\x27, \x7b component: \x27q\x27 , error \x7d) C").toList

/-- Unmatched text placed in front of a match (for the frame property). -/
def preText : List Char := "const before = true; ".toList

/-- A single canonical match used after `preText`. -/
def lineTwo : List Char :=
  "logger.info(\x27two\x27, error, \x7b component: \x27db\x27 \x7d)".toList

/-- A match followed by trailing text. -/
def lineTail : List Char :=
  "logger.warn(a, error, \x7b component: b \x7d) tail".toList

/-- The match the pattern finds at the start of `lineTail`. -/
def mTail : RMatch :=
  ⟨"warn".toList, "a".toList, "b ".toList, " tail".toList⟩

/-- A call site on a receiver merely ending in `logger`. -/
def lineMyLogger : List Char :=
  "mylogger.warn(\x27m\x27, error, \x7b component: \x27x\x27 \x7d)".toList

/-- The script's output for `lineMyLogger`: the call is rewritten and the
leading `my` is preserved. -/
def lineMyLoggerOut : List Char :=
  "mylogger.warn(\x27m\x27, \x7b component: \x27x\x27 , error \x7d)".toList

/-- Content with no logger call at all (used for the success-run witness). -/
def plainContent : List Char := "const x = 1;\n".toList

/-! ### The claims -/

/-- Claim C1, counterexample: the spec says the extra-key line
`logger.warn('Cache miss', error, \x7b component: 'cache', extra: 1 \x7d)` is left
unchanged, but the script changes it: `[^\x7d]+` admits commas, so the extra key
does not stop the match. -/
theorem C1_extra_key_counterexample :
    content_fixed lineCacheMiss ≠ lineCacheMiss := by decide

/-- Claim C1, amended: the extra-key line is rewritten, the whole run
`'cache', extra: 1 ` up to the first closing brace becoming group 3, giving
`logger.warn('Cache miss', \x7b component: 'cache', extra: 1 , error \x7d)`. -/
theorem C1_extra_key_rewritten :
    content_fixed lineCacheMiss = lineCacheMissOut := by decide

/-- Claim C2, counterexample: the claimed outputs drop the space that group 3
captures before the closing brace; the script's actual outputs keep it, so
neither literal scenario produces the claimed text. -/
theorem C2_literal_scenario_counterexample :
    content_fixed lineSaved ≠ lineSavedClaimed ∧
      content_fixed lineCanonical ≠ lineCanonicalClaimed := by decide

/-- Claim C2, amended: one canonical occurrence is rewritten once and the rest
of the line is unchanged, but group 3 retains the space before the closing
brace, so the outputs read `\x7b component: 'storage' , error \x7d` and
`\x7b component: 'X' , error \x7d` (a space before the inserted comma). -/
theorem C2_literal_scenario_actual :
    content_fixed lineSaved = lineSavedActual ∧
      content_fixed lineCanonical = lineCanonicalActual := by decide

/-- Claim C3, counterexample: the substitution is not idempotent for every
input.  For `lineNested` the first pass moves the outer `error` inward,
which exposes the inner `logger.warn(x, error, \x7b component: ... \x7d)` to a
second pass. -/
theorem C3_not_idempotent :
    content_fixed (content_fixed lineNested) ≠ content_fixed lineNested := by
  decide

/-- Claim C3, amended: the second application produces no further change
exactly on those outputs in which the pattern no longer matches anywhere;
the rewritten canonical form is such an output (see the witness), but not
every output is. -/
theorem C3_idempotent_when_output_matchless (s : List Char)
    (h : hasMatch (content_fixed s) = false) :
    content_fixed (content_fixed s) = content_fixed s :=
  content_fixed_of_no_match h

/-- Witness for `C3_idempotent_when_output_matchless` at the spec's canonical
scenario line. -/
theorem C3_idempotent_witness :
    hasMatch (content_fixed lineCanonical) = false ∧
      content_fixed (content_fixed lineCanonical) = content_fixed lineCanonical :=
  ⟨by decide, C3_idempotent_when_output_matchless lineCanonical (by decide)⟩

/-- Claim C4: if the matched call-site shape occurs nowhere in the input
(the pattern matches at no position), the output equals the input exactly. -/
theorem C4_identity_without_match (s : List Char) (h : hasMatch s = false) :
    content_fixed s = s :=
  content_fixed_of_no_match h

/-- Witness for `C4_identity_without_match` on text with no matched shape. -/
theorem C4_identity_witness :
    hasMatch lineNoMatch = false ∧ content_fixed lineNoMatch = lineNoMatch :=
  ⟨by decide, C4_identity_without_match lineNoMatch (by decide)⟩

/-- Claim C5: matching is case-sensitively restricted to the levels `warn`
and `info`.  Every successful match starts with `logger.warn(` or
`logger.info(`, and an input with no such site anywhere (whatever other
level names it uses) passes through unchanged. -/
theorem C5_only_warn_info (s : List Char) :
    (noWarnInfoSite s = true → content_fixed s = s) ∧
      ∀ m : RMatch, tryMatch s = some m → startsWI s = true :=
  ⟨content_fixed_of_noWarnInfoSite, fun _ h => tryMatch_some_startsWI h⟩

/-- Witness for `C5_only_warn_info`: `logger.error`, `logger.debug`,
`logger.Warn` and `logger.INFO` call sites are all left unchanged, and the
canonical match indeed sits at a `logger.warn(` site. -/
theorem C5_only_warn_info_witness :
    content_fixed lineOtherLevels = lineOtherLevels ∧
      startsWI lineCanonical = true :=
  ⟨(C5_only_warn_info lineOtherLevels).1 (by decide),
    (C5_only_warn_info lineCanonical).2
      ⟨"warn".toList, "\x27msg\x27".toList, "\x27X\x27 ".toList, []⟩ (by decide)⟩

/-- Claim C6: with no file-path argument (argument vector of length at most
one, the program name included), the script prints the usage line, exits
with status 1, and writes nothing — for every possible file content, so no
file is consulted at all. -/
theorem C6_missing_argument (argv : List String) (content : List Char)
    (h : argv.length ≤ 1) :
    runScript argv content = ⟨[usage_message], 1, none⟩ := by
  cases argv with
  | nil => rfl
  | cons a t =>
    cases t with
    | nil => rfl
    | cons b t2 =>
      exfalso
      simp only [List.length_cons] at h
      omega

/-- Witness for `C6_missing_argument`: the bare invocation. -/
theorem C6_missing_argument_witness :
    runScript ["fix-all-logger-signatures.py"] "abc".toList =
      ⟨[usage_message], 1, none⟩ :=
  C6_missing_argument _ _ (by decide)

/-- Claim C7: on a run with a non-empty file path the script writes back the
substituted content (even with zero matches, in which case the written
content is identical to what was read), prints `Fixed: <path>`, and exits
with status 0. -/
theorem C7_success_run (a0 p : String) (rest : List String)
    (content : List Char) (h : p ≠ "") :
    runScript (a0 :: p :: rest) content =
        ⟨["Fixed: " ++ p], 0, some (content_fixed content)⟩ ∧
      (hasMatch content = false →
        runScript (a0 :: p :: rest) content =
          ⟨["Fixed: " ++ p], 0, some content⟩) := by
  have h1 : runScript (a0 :: p :: rest) content =
      ⟨["Fixed: " ++ p], 0, some (content_fixed content)⟩ := by
    simp [runScript, filePathOf, h]
  exact ⟨h1, fun hnm => by rw [h1, content_fixed_of_no_match hnm]⟩

/-- Witness for `C7_success_run`: a run on matchless content rewrites the file
with identical content and still reports success. -/
theorem C7_success_run_witness :
    runScript ["fix-all-logger-signatures.py", "src/app.ts"] plainContent =
      ⟨["Fixed: src/app.ts"], 0, some plainContent⟩ :=
  (C7_success_run "fix-all-logger-signatures.py" "src/app.ts" [] plainContent
    (by decide)).2 (by decide)

/-- Claim C8: characters outside matched regions are preserved verbatim — any
prefix in which no match starts is copied unchanged and the scan proceeds
independently on the remainder; each match is replaced and the scan resumes
after it (so multiple matches are all rewritten in one pass, as on
`lineTwoMatches`). -/
theorem C8_frame (u v s : List Char) (m : RMatch) :
    (noStartIn u v = true → content_fixed (u ++ v) = u ++ content_fixed v) ∧
      (tryMatch s = some m →
        content_fixed s = render m ++ content_fixed m.rest) ∧
      content_fixed lineTwoMatches = lineTwoMatchesOut :=
  ⟨content_fixed_append_of_noStartIn u v, content_fixed_of_match, by decide⟩

/-- Witness for `C8_frame`: unmatched leading text is copied byte-for-byte,
and the match in `lineTail` is rewritten with its trailing text preserved. -/
theorem C8_frame_witness :
    content_fixed (preText ++ lineTwo) = preText ++ content_fixed lineTwo ∧
      content_fixed lineTail = render mTail ++ content_fixed mTail.rest :=
  ⟨(C8_frame preText lineTwo [] ⟨[], [], [], []⟩).1 (by decide),
    (C8_frame [] [] lineTail mTail).2.1 (by decide)⟩

/-- Claim C9 (implicit): an empty-string path argument falls into the same
`if not file_path` branch as a missing argument: usage line, exit status 1,
nothing written, for every file content. -/
theorem C9_empty_path_argument (a0 : String) (rest : List String)
    (content : List Char) :
    runScript (a0 :: "" :: rest) content = ⟨[usage_message], 1, none⟩ := rfl

/-- Claim C10 (implicit): the pattern is not anchored at an identifier
boundary, so the `logger.` inside `mylogger.` matches: the call is rewritten
and the leading `my` is preserved. -/
theorem C10_unanchored_receiver :
    content_fixed lineMyLogger = lineMyLoggerOut := by decide

end FixLoggerSignatures
